import Mathlib

/-!
Verification of the constant-rewrite engine in `patches/monkey_patch_tgto123.py`
and its entry points (`run_pyc_patched.py`, `decode_pyc_single.py`).

Python strings are modelled as `List Char` (a Python `str` is a sequence of
code points); `str.replace` and the substring operator `in` are modelled by
`pyReplace` and `strIn` below, with Python's left-to-right, non-overlapping,
replace-all semantics.  Python code objects are modelled as a `CodeFields`
record (every field except the constant pool) together with a constant pool
`List PyConst`.  Reference identity (`is` / `is not`), which the source uses
to detect "nothing changed", is modelled explicitly: functions that in Python
either return their argument unchanged or allocate a fresh object return a
`Bool × _` pair whose first component is `true` exactly when the source takes
the branch that allocates a new object, and `false` exactly when the source
executes `return code` (or `return func`) on the original reference.
-/

/-- Every field of a CPython code object except `co_consts`, as enumerated by
the Python-3.11 `types.CodeType` constructor call in
`_rebuild_code_with_new_consts`.  Byte strings (`co_code`, `co_linetable`,
`co_exceptiontable`) are sequences of byte values, name tuples are sequences
of strings. -/
structure CodeFields where
  co_argcount : Nat
  co_posonlyargcount : Nat
  co_kwonlyargcount : Nat
  co_nlocals : Nat
  co_stacksize : Nat
  co_flags : Nat
  co_code : List Nat
  co_names : List (List Char)
  co_varnames : List (List Char)
  co_filename : List Char
  co_name : List Char
  co_qualname : List Char
  co_firstlineno : Nat
  co_linetable : List Nat
  co_exceptiontable : List Nat
  co_freevars : List (List Char)
  co_cellvars : List (List Char)
deriving DecidableEq, Repr

/-- A value that can occur in a code object's constant pool.  `code` carries
the nested code object's non-constant fields and its own constant pool.
Floats are opaque (only their textual representation is kept): the source
never computes with them, it only passes them through unchanged.  `other`
stands for any further constant kind (e.g. a complex number), likewise only
ever passed through. -/
inductive PyConst where
  | str (s : List Char)
  | int (n : Int)
  | bool (b : Bool)
  | float (r : List Char)
  | bytes (bs : List Nat)
  | pynone
  | tuple (elems : List PyConst)
  | frozenset (elems : List PyConst)
  | code (fields : CodeFields) (consts : List PyConst)
  | other (tag : List Char)
deriving Repr

mutual
/-- Python `==` on constants.  Python's `bool` is a subclass of `int`, so
`True == 1` and `False == 0`; the cross cases below reflect that.  Code
objects are compared structurally (the source never applies `==`/`!=` to code
objects — it uses `is not` for them — so this case is never exercised).
Opaque floats compare by representation; a float never compares equal to an
int here, which is only unfaithful for cross-type comparisons the source
never performs. -/
def pyBeq : PyConst → PyConst → Bool
  | .str a, .str b => a == b
  | .int a, .int b => a == b
  | .bool a, .bool b => a == b
  | .int a, .bool b => a == (if b then 1 else 0)
  | .bool a, .int b => (if a then (1 : Int) else 0) == b
  | .float a, .float b => a == b
  | .bytes a, .bytes b => a == b
  | .pynone, .pynone => true
  | .tuple xs, .tuple ys => pyBeqList xs ys
  | .frozenset xs, .frozenset ys => pyBeqList xs ys
  | .code f cs, .code g ds => f == g && pyBeqList cs ds
  | .other a, .other b => a == b
  | _, _ => false

/-- Elementwise Python `==` on equal-length sequences (tuple comparison). -/
def pyBeqList : List PyConst → List PyConst → Bool
  | [], [] => true
  | x :: xs, y :: ys => pyBeq x y && pyBeqList xs ys
  | _, _ => false
end

/-- Python's substring operator `old in s`. -/
def strIn (old : List Char) : List Char → Bool
  | [] => old.isEmpty
  | c :: rest => old.isPrefixOf (c :: rest) || strIn old rest

/-- Python's `s.replace(old, new)`: replace every occurrence of `old` in `s`
by `new`, scanning left to right, non-overlapping.  (Python treats an empty
`old` specially; every pattern in this development is nonempty, and the
`!old.isEmpty` test only guards termination.) -/
def pyReplace (s old new : List Char) : List Char :=
  match s with
  | [] => []
  | c :: rest =>
    if _h : !old.isEmpty && old.isPrefixOf (c :: rest) then
      new ++ pyReplace ((c :: rest).drop old.length) old new
    else
      c :: pyReplace rest old new
termination_by s.length
decreasing_by
  · have hpos : 0 < old.length := by
      cases old with
      | nil => simp at _h
      | cons x xs => simp
    simp only [List.length_drop, List.length_cons]
    omega
  · simp [List.length_cons]

/-- The ordered substitution table `_REPLACEMENTS` from the source: URL forms
before bare identifier forms. -/
def _REPLACEMENTS : List (List Char × List Char) :=
  [(("https://t.me/tgto123update/").toList, ("https://t.me/TG123Cloud/").toList),
   (("https://t.me/tgto123update").toList, ("https://t.me/TG123Cloud").toList),
   (("@tgto123update").toList, ("@TG123Cloud").toList),
   (("tgto123update").toList, ("TG123Cloud").toList)]

/-- `_transform_string` from the source: fold over `_REPLACEMENTS` in
declaration order; each rule does a global replace on the current value,
guarded by a substring test. -/
def _transform_string (value : List Char) : List Char :=
  _REPLACEMENTS.foldl
    (fun new_value r => if strIn r.1 new_value then pyReplace new_value r.1 r.2 else new_value)
    value

/-- `_transform_const` from the source: strings go through
`_transform_string`; the exact integer `47` becomes `8`; everything else is
returned unchanged.  A Python `bool` passes the `isinstance(value, int)` test
but never equals `47`, so it falls through to `return value` like the other
non-string non-integer cases, which the final catch-all arm covers. -/
def _transform_const : PyConst → PyConst
  | .str s => .str (_transform_string s)
  | .int n => if n == 47 then .int 8 else .int n
  | v => v

example : _transform_string (("say tgto123update now").toList) = ("say TG123Cloud now").toList := by
  simp [_transform_string, _REPLACEMENTS, strIn, pyReplace]

example : _transform_const (.int 47) = .int 8 := by simp [_transform_const]

/-- `_rebuild_code_with_new_consts` from the source.  On Python ≥ 3.8 the
source calls `code.replace(co_consts=new_consts)`; the fallback branches call
the `types.CodeType` constructor passing every field of the original code
object positionally and `new_consts` in the `co_consts` position.  All
branches produce a code object whose non-constant fields are those of the
input, spelled out field by field here as in the 3.11 constructor call. -/
def _rebuild_code_with_new_consts (code : CodeFields) (new_consts : List PyConst) :
    CodeFields × List PyConst :=
  ({ co_argcount := code.co_argcount
     co_posonlyargcount := code.co_posonlyargcount
     co_kwonlyargcount := code.co_kwonlyargcount
     co_nlocals := code.co_nlocals
     co_stacksize := code.co_stacksize
     co_flags := code.co_flags
     co_code := code.co_code
     co_names := code.co_names
     co_varnames := code.co_varnames
     co_filename := code.co_filename
     co_name := code.co_name
     co_qualname := code.co_qualname
     co_firstlineno := code.co_firstlineno
     co_linetable := code.co_linetable
     co_exceptiontable := code.co_exceptiontable
     co_freevars := code.co_freevars
     co_cellvars := code.co_cellvars }, new_consts)

mutual
/-- `_rewrite_code_object_consts` from the source, on a code object split
into its non-constant fields and its constant pool.  The returned `Bool` is
`true` exactly when the source's `changed` flag is set, i.e. when the source
returns a freshly rebuilt object; it is `false` exactly when the source
executes `return code`, handing back the original reference. -/
def _rewrite_code_object_consts (fields : CodeFields) (consts : List PyConst)
    (transform : PyConst → PyConst) : Bool × CodeFields × List PyConst :=
  match rewriteConstsLoop consts transform with
  | (true, new_consts_list) => (true, _rebuild_code_with_new_consts fields new_consts_list)
  | (false, _) => (false, fields, consts)

/-- The `for const in code.co_consts` loop of `_rewrite_code_object_consts`:
returns the accumulated `changed` flag and the built-up `new_consts_list`. -/
def rewriteConstsLoop (consts : List PyConst) (transform : PyConst → PyConst) :
    Bool × List PyConst :=
  match consts with
  | [] => (false, [])
  | const :: rest =>
    let hd := entryRewrite const transform
    let tl := rewriteConstsLoop rest transform
    (hd.1 || tl.1, hd.2 :: tl.2)

/-- One iteration of the loop body: the `isinstance(const, (str, int))`
branch (which — `bool` being a subclass of `int` in Python — also covers
booleans) applies `transform` and compares with `!=`; the
`isinstance(const, types.CodeType)` branch recurses and compares with
`is not` (i.e. uses the recursion's freshness flag); every other constant is
appended unchanged. -/
def entryRewrite (const : PyConst) (transform : PyConst → PyConst) : Bool × PyConst :=
  match const with
  | .str s =>
    let new_const := transform (.str s)
    (!pyBeq new_const (.str s), new_const)
  | .int n =>
    let new_const := transform (.int n)
    (!pyBeq new_const (.int n), new_const)
  | .bool b =>
    let new_const := transform (.bool b)
    (!pyBeq new_const (.bool b), new_const)
  | .code f cs =>
    let nested := _rewrite_code_object_consts f cs transform
    (nested.1, .code nested.2.1 nested.2.2)
  | c => (false, c)
end

example :
    _rewrite_code_object_consts
      { co_argcount := 0, co_posonlyargcount := 0, co_kwonlyargcount := 0,
        co_nlocals := 0, co_stacksize := 1, co_flags := 0, co_code := [100, 0],
        co_names := [], co_varnames := [], co_filename := ("m.py").toList,
        co_name := ("f").toList, co_qualname := ("f").toList, co_firstlineno := 1,
        co_linetable := [], co_exceptiontable := [], co_freevars := [], co_cellvars := [] }
      [.int 47, .str (("x").toList)] _transform_const
    = (true,
       { co_argcount := 0, co_posonlyargcount := 0, co_kwonlyargcount := 0,
         co_nlocals := 0, co_stacksize := 1, co_flags := 0, co_code := [100, 0],
         co_names := [], co_varnames := [], co_filename := ("m.py").toList,
         co_name := ("f").toList, co_qualname := ("f").toList, co_firstlineno := 1,
         co_linetable := [], co_exceptiontable := [], co_freevars := [], co_cellvars := [] },
       [.int 8, .str (("x").toList)]) := by
  simp [_rewrite_code_object_consts, rewriteConstsLoop, entryRewrite, _transform_const,
    _transform_string, _REPLACEMENTS, strIn, pyReplace, pyBeq, _rebuild_code_with_new_consts]

mutual
/-- True iff no scalar inside this constant — at any nesting depth of nested
code objects — is changed by any substitution rule or by the numeric rule:
a nested code object is inspected through its pool; any other constant is
unchanged iff `_transform_const` returns a value equal to it. -/
def constUnmatched : PyConst → Bool
  | .code _ cs => poolUnmatched cs
  | c => pyBeq (_transform_const c) c

/-- `constUnmatched` over a whole constant pool. -/
def poolUnmatched : List PyConst → Bool
  | [] => true
  | c :: rest => constUnmatched c && poolUnmatched rest
end

mutual
/-- True iff this constant contains no integer equal to `47`, descending into
nested code objects but not into container constants (tuples, frozensets),
which the rewriter never enters. -/
def const47Free : PyConst → Bool
  | .int n => !(n == 47)
  | .code _ cs => pool47Free cs
  | _ => true

/-- `const47Free` over a whole constant pool. -/
def pool47Free : List PyConst → Bool
  | [] => true
  | c :: rest => const47Free c && pool47Free rest
end

/-- Reference definition written from the spec's words for rule application:
fold over the four substitution rules in their fixed declaration order (URL
forms before bare identifier forms), each rule performing a global substring
replacement on the current — possibly already modified — value, only if its
match-literal occurs as a substring. -/
def specOrderedChainedReplace (s : List Char) : List Char :=
  let r1 :=
    if strIn (("https://t.me/tgto123update/").toList) s then
      pyReplace s (("https://t.me/tgto123update/").toList) (("https://t.me/TG123Cloud/").toList)
    else s
  let r2 :=
    if strIn (("https://t.me/tgto123update").toList) r1 then
      pyReplace r1 (("https://t.me/tgto123update").toList) (("https://t.me/TG123Cloud").toList)
    else r1
  let r3 :=
    if strIn (("@tgto123update").toList) r2 then
      pyReplace r2 (("@tgto123update").toList) (("@TG123Cloud").toList)
    else r2
  let r4 :=
    if strIn (("tgto123update").toList) r3 then
      pyReplace r3 (("tgto123update").toList) (("TG123Cloud").toList)
    else r3
  r4

/-- A Python function object: its code object (fields + constant pool), its
positional default values (`__defaults__`, empty list for `None`), and its
keyword-only defaults (`__kwdefaults__` as an association list, empty for
`None`). -/
structure PyFunction where
  code_fields : CodeFields
  code_consts : List PyConst
  defaults : List PyConst
  kwdefaults : List (List Char × PyConst)
deriving Repr

/-- Python `==` on `__kwdefaults__` dicts whose key sets are unchanged (the
source only compares a dict with its value-transformed copy, which preserves
keys and ordering). -/
def pyBeqKw : List (List Char × PyConst) → List (List Char × PyConst) → Bool
  | [], [] => true
  | (k1, v1) :: xs, (k2, v2) :: ys => k1 == k2 && pyBeq v1 v2 && pyBeqKw xs ys
  | _, _ => false

/-- `_patch_function` from the source, exception-free body: rewrite the
compiled body, reassigning `__code__` only when the rewriter returned a fresh
object; then rewrite `__defaults__` and `__kwdefaults__` through
`_transform_const`, reassigning only on `!=`.  The `try/except` wrapper,
which turns any raised exception into `changed = False`, is modelled
separately by `_patch_function_fallible`. -/
def _patch_function (fn : PyFunction) : Bool × PyFunction :=
  let r := _rewrite_code_object_consts fn.code_fields fn.code_consts _transform_const
  let changed1 := r.1
  let fn1 := if r.1 then { fn with code_fields := r.2.1, code_consts := r.2.2 } else fn
  let step2 :=
    if fn1.defaults.isEmpty then (changed1, fn1)
    else
      let new_defaults := fn1.defaults.map _transform_const
      if pyBeqList new_defaults fn1.defaults then (changed1, fn1)
      else (true, { fn1 with defaults := new_defaults })
  let fn2 := step2.2
  if fn2.kwdefaults.isEmpty then step2
  else
    let new_kw := fn2.kwdefaults.map (fun kv => (kv.1, _transform_const kv.2))
    if pyBeqKw new_kw fn2.kwdefaults then step2
    else (true, { fn2 with kwdefaults := new_kw })

/-- Left-to-right evaluation of a tuple/dict comprehension whose element
expression may raise: the first raised exception propagates, otherwise the
mapped list is produced. -/
def exceptMapM {E α β : Type} (g : α → Except E β) : List α → Except E (List β)
  | [] => .ok []
  | x :: rest =>
    match g x with
    | .error e => .error e
    | .ok y =>
      match exceptMapM g rest with
      | .error e => .error e
      | .ok ys => .ok (y :: ys)

/-- `_patch_function` with the `try/except Exception: return False` wrapper
made visible.  The two operations the `try` block performs that can raise are
abstracted as oracles: `rewrite_body` (the code rewrite together with the
`__code__` reassignment) and `transform_default` (one `_transform_const`
call while rebuilding the default tuples).  Whenever an oracle raises, the
function returns `changed = false`; the function-object component carries
whatever mutations happened before the raise, exactly as in Python, where
`except` does not roll back earlier attribute assignments. -/
def _patch_function_fallible (E : Type)
    (rewrite_body : CodeFields → List PyConst → Except E (Bool × CodeFields × List PyConst))
    (transform_default : PyConst → Except E PyConst)
    (fn : PyFunction) : Bool × PyFunction :=
  match rewrite_body fn.code_fields fn.code_consts with
  | .error _ => (false, fn)
  | .ok r =>
    let changed1 := r.1
    let fn1 := if r.1 then { fn with code_fields := r.2.1, code_consts := r.2.2 } else fn
    let defaultsRes : Except E (Bool × PyFunction) :=
      if fn1.defaults.isEmpty then .ok (changed1, fn1)
      else
        match exceptMapM transform_default fn1.defaults with
        | .error e => .error e
        | .ok new_defaults =>
          if pyBeqList new_defaults fn1.defaults then .ok (changed1, fn1)
          else .ok (true, { fn1 with defaults := new_defaults })
    match defaultsRes with
    | .error _ => (false, fn1)
    | .ok step2 =>
      let fn2 := step2.2
      let kwRes : Except E (Bool × PyFunction) :=
        if fn2.kwdefaults.isEmpty then .ok step2
        else
          match exceptMapM (fun kv => (transform_default kv.2).map (fun v => (kv.1, v))) fn2.kwdefaults with
          | .error e => .error e
          | .ok new_kw =>
            if pyBeqKw new_kw fn2.kwdefaults then .ok step2
            else .ok (true, { fn2 with kwdefaults := new_kw })
      match kwRes with
      | .error _ => (false, fn2)
      | .ok res => res

/-- A Python callable as the wrapper path sees it: its
`__patched_tgto123__` marker (absent = `False`, via
`getattr(func, "__patched_tgto123__", False)`), its `__name__`, and its call
behaviour on positional and keyword arguments. -/
structure Callable where
  marked : Bool
  name : List Char
  call : List PyConst → List (List Char × PyConst) → PyConst

/-- `_transform_arg` from the source (inner helper of the wrapper): strings
are sanitized through `_transform_string`, everything else passes through. -/
def _transform_arg : PyConst → PyConst
  | .str s => .str (_transform_string s)
  | v => v

/-- `_wrap_callable_string_transform` from the source, on a callable input
(the `if not callable(func): return func` guard is outside this model, which
only receives callables).  The returned `Bool` is `true` exactly when a fresh
wrapper was allocated, `false` exactly when the source executes
`return func`, handing back the original reference because the marker was
already set.  The wrapper transforms every positional and keyword argument
with `_transform_arg` before delegating, takes over the wrappee's `__name__`,
and carries the marker. -/
def _wrap_callable_string_transform (func : Callable) : Bool × Callable :=
  if func.marked then (false, func)
  else
    (true,
     { marked := true
       name := func.name
       call := fun args kwargs =>
         func.call (args.map _transform_arg)
           (kwargs.map (fun kv => (kv.1, _transform_arg kv.2))) })

/-- A directly-declared class member, as dispatched by `_patch_class`:
static/class-method wrappers around a function, a plain function, a property
with its up-to-three accessors, or any other attribute (skipped). -/
inductive ClassAttr where
  | staticM (fn : PyFunction)
  | classM (fn : PyFunction)
  | plainFn (fn : PyFunction)
  | prop (fget fset fdel : Option PyFunction)
  | dataOther

/-- `_patch_property` from the source: patch each present accessor, or-ing
the changed flags. -/
def _patch_property (fget fset fdel : Option PyFunction) :
    Bool × (Option PyFunction × Option PyFunction × Option PyFunction) :=
  let rg := match fget with
    | some fn => let p := _patch_function fn; (p.1, some p.2)
    | none => (false, none)
  let rs := match fset with
    | some fn => let p := _patch_function fn; (p.1, some p.2)
    | none => (false, none)
  let rd := match fdel with
    | some fn => let p := _patch_function fn; (p.1, some p.2)
    | none => (false, none)
  (rg.1 || rs.1 || rd.1, (rg.2, rs.2, rd.2))

/-- `_patch_class` from the source: walk the class's directly-declared
members in order; static/class-method wrappers are unwrapped to their
`__func__`, plain functions are patched directly, properties through
`_patch_property`; each member that reports a change adds one to the count;
any other member kind is skipped. -/
def _patch_class (attrs : List (List Char × ClassAttr)) :
    Nat × List (List Char × ClassAttr) :=
  match attrs with
  | [] => (0, [])
  | (nm, attr) :: rest =>
    let r := _patch_class rest
    match attr with
    | .staticM fn =>
      let p := _patch_function fn
      ((if p.1 then 1 else 0) + r.1, (nm, .staticM p.2) :: r.2)
    | .classM fn =>
      let p := _patch_function fn
      ((if p.1 then 1 else 0) + r.1, (nm, .classM p.2) :: r.2)
    | .plainFn fn =>
      let p := _patch_function fn
      ((if p.1 then 1 else 0) + r.1, (nm, .plainFn p.2) :: r.2)
    | .prop g s d =>
      let p := _patch_property g s d
      ((if p.1 then 1 else 0) + r.1, (nm, .prop p.2.1 p.2.2.1 p.2.2.2) :: r.2)
    | .dataOther => (r.1, (nm, .dataOther) :: r.2)

/-- A module namespace as `apply_patch` sweeps it, with the bindings split by
kind (in Python they share one `vars(module)` dict; the split is harmless
because `apply_patch` dispatches purely on the value's type).  Aliasing of
one object under several names — which the source's seen-object identity set
deduplicates — is not representable here: every binding holds its own value.
The `bot` attribute and the telebot special case (steps 5 and 6 of the
source) concern namespaces outside this model and are omitted. -/
structure PyModule where
  newest_id : Option PyConst
  str_attrs : List (List Char × List Char)
  func_attrs : List (List Char × PyFunction)
  class_attrs : List (List Char × List (List Char × ClassAttr))
  send_message : Option Callable

/-- The function-patching part of `apply_patch` step 3. -/
def patchFuncAttrs (attrs : List (List Char × PyFunction)) :
    Nat × List (List Char × PyFunction) :=
  match attrs with
  | [] => (0, [])
  | (nm, fn) :: rest =>
    let r := patchFuncAttrs rest
    let p := _patch_function fn
    ((if p.1 then 1 else 0) + r.1, (nm, p.2) :: r.2)

/-- The class-patching part of `apply_patch` step 3: each class contributes
its `_patch_class` member count. -/
def patchClassAttrs (attrs : List (List Char × List (List Char × ClassAttr))) :
    Nat × List (List Char × List (List Char × ClassAttr)) :=
  match attrs with
  | [] => (0, [])
  | (nm, cls) :: rest =>
    let r := patchClassAttrs rest
    let p := _patch_class cls
    (p.1 + r.1, (nm, p.2) :: r.2)

/-- `apply_patch` from the source on an already-resolved module object:
(1) force `newest_id := 8` when the attribute exists; (2) rewrite every
module-level string binding through `_transform_string`; (3) patch every
function and class binding, accumulating the local `changed_total` counter;
(4) wrap `send_message` when present.  The Python function returns only the
module; `changed_total` is its local counter, returned here alongside the
module so that theorems can speak about the count the sweep accumulates. -/
def apply_patch (module : PyModule) : PyModule × Nat :=
  let m1 : PyModule := { module with
    newest_id := if module.newest_id.isSome then some (.int 8) else none }
  let m2 : PyModule := { m1 with
    str_attrs := m1.str_attrs.map (fun kv => (kv.1, _transform_string kv.2)) }
  let pf := patchFuncAttrs m2.func_attrs
  let pc := patchClassAttrs m2.class_attrs
  let changed_total := pf.1 + pc.1
  let m3 := { m2 with func_attrs := pf.2, class_attrs := pc.2 }
  let m4 := { m3 with
    send_message := m3.send_message.map (fun f => (_wrap_callable_string_transform f).2) }
  (m4, changed_total)

/-- How a run of the entry-point process ends: `main` returned an exit code
(delivered through `raise SystemExit(main())`), or an exception escaped
`main` uncaught. -/
inductive ExitOutcome where
  | exitCode (n : Nat)
  | uncaught
deriving DecidableEq, Repr

/-- The operating-system exit status of the interpreter process for a given
outcome: `SystemExit(n)` exits with status `n`; CPython terminates a process
whose top-level raises an uncaught exception with status 1 after printing the
traceback. -/
def processExitStatus : ExitOutcome → Nat
  | .exitCode n => n
  | .uncaught => 1

/-- `main` from `run_pyc_patched.py` over its collaborator results.  `argv`
is the full `sys.argv` (element 0 is the script path); `loadResult` is what
`SourcelessFileLoader.get_code("__main__")` produces — a raised exception
(`.error`, e.g. missing file or bad magic) or a returned value, which `main`
checks with `isinstance(code_obj, types.CodeType)`; `execOk` tells whether
`exec` of the transformed code object runs to completion.  The constant
transformation applied between loading and `exec` never affects the exit
path.  `main` in `decode_pyc_single.py` has the identical exit-code
structure; its extra pre-load `apply_patch_globally()` call sits inside
`try/except` and cannot change the exit code. -/
def run_pyc_main (argv : List (List Char)) (loadResult : Except (List Char) PyConst)
    (execOk : Bool) : ExitOutcome :=
  if argv.length < 2 then .exitCode 2
  else
    match loadResult with
    | .error _ => .uncaught
    | .ok code_obj =>
      match code_obj with
      | .code _ _ => if execOk then .exitCode 0 else .uncaught
      | _ => .exitCode 1

mutual
/-- A constant none of whose scalars (at any code-object nesting depth) is
changed by a rule goes through one loop iteration untouched: no fresh object,
and the appended entry is the original. -/
theorem entryRewrite_unmatched (c : PyConst) (h : constUnmatched c = true) :
    entryRewrite c _transform_const = (false, c) := by
  cases c with
  | str s =>
    have hs : _transform_string s = s := by
      have := h
      simp [constUnmatched, _transform_const, pyBeq] at this
      exact this
    simp [entryRewrite, _transform_const, pyBeq, hs]
  | int n =>
    have hn : ¬ n = 47 := by
      intro hc
      subst hc
      simp [constUnmatched, _transform_const, pyBeq] at h
    simp [entryRewrite, _transform_const, pyBeq, hn]
  | bool b => simp [entryRewrite, _transform_const, pyBeq]
  | code f cs =>
    have hcs : poolUnmatched cs = true := by simpa [constUnmatched] using h
    have := rewriteConstsLoop_unmatched cs hcs
    simp [entryRewrite, _rewrite_code_object_consts, this]
  | float r => simp [entryRewrite]
  | bytes bs => simp [entryRewrite]
  | pynone => simp [entryRewrite]
  | tuple es => simp [entryRewrite]
  | frozenset es => simp [entryRewrite]
  | other t => simp [entryRewrite]

/-- A pool none of whose scalars is changed by a rule leaves the loop with
`changed = False` and the pool rebuilt as the same list of entries. -/
theorem rewriteConstsLoop_unmatched (cs : List PyConst) (h : poolUnmatched cs = true) :
    rewriteConstsLoop cs _transform_const = (false, cs) := by
  cases cs with
  | nil => simp [rewriteConstsLoop]
  | cons c rest =>
    have hc : constUnmatched c = true := by
      simp [poolUnmatched] at h
      exact h.1
    have hrest : poolUnmatched rest = true := by
      simp [poolUnmatched] at h
      exact h.2
    have h1 := entryRewrite_unmatched c hc
    have h2 := rewriteConstsLoop_unmatched rest hrest
    simp [rewriteConstsLoop, h1, h2]
end

/-- A concrete code object's non-constant fields, used by witnesses. -/
def sampleFields : CodeFields :=
  { co_argcount := 1, co_posonlyargcount := 0, co_kwonlyargcount := 0,
    co_nlocals := 2, co_stacksize := 3, co_flags := 67, co_code := [100, 1, 83, 0],
    co_names := [("print").toList], co_varnames := [("x").toList],
    co_filename := ("mod.py").toList, co_name := ("f").toList,
    co_qualname := ("f").toList, co_firstlineno := 10,
    co_linetable := [1, 2], co_exceptiontable := [],
    co_freevars := [], co_cellvars := [("y").toList] }

/-- C1: if no constant in the unit's transitive constant pool (scalars at any
nesting depth of nested compiled units) is changed by any substitution rule
or by the numeric rule, `_rewrite_code_object_consts` leaves its `changed`
flag `False` and executes `return code`: the `false` first component below is
precisely that branch, which hands back the exact original object reference,
not a copy, and the returned fields and pool are the originals. -/
theorem C1_identity_preservation (fields : CodeFields) (consts : List PyConst)
    (h : poolUnmatched consts = true) :
    _rewrite_code_object_consts fields consts _transform_const = (false, fields, consts) := by
  have hl := rewriteConstsLoop_unmatched consts h
  simp [_rewrite_code_object_consts, hl]

/-- Witness for C1 at a concrete unit: a pool holding an unmatched string, an
unmatched integer, and a nested unit with an unmatched float, none touched by
any rule. -/
theorem C1_identity_preservation_witness :
    poolUnmatched [.str (("hello").toList), .int 5,
      .code sampleFields [.float (("2.5").toList)]] = true ∧
    _rewrite_code_object_consts sampleFields
      [.str (("hello").toList), .int 5, .code sampleFields [.float (("2.5").toList)]]
      _transform_const
      = (false, sampleFields,
         [.str (("hello").toList), .int 5, .code sampleFields [.float (("2.5").toList)]]) := by
  have hp : poolUnmatched [.str (("hello").toList), .int 5,
      .code sampleFields [.float (("2.5").toList)]] = true := by
    simp [poolUnmatched, constUnmatched, _transform_const, _transform_string,
      _REPLACEMENTS, strIn, pyReplace, pyBeq]
  exact ⟨hp, C1_identity_preservation sampleFields _ hp⟩

/-- C3: `_transform_string` equals the reference definition that folds over
the four substitution rules in their fixed declaration order (URL forms
before bare identifier forms), each rule doing a guarded global substring
replacement on the current, possibly already-modified, value; on a string
holding both a full URL form and a bare identifier form the result is the
ordered chained replacement of both occurrences. -/
theorem C3_rule_ordering :
    (∀ s : List Char, _transform_string s = specOrderedChainedReplace s) ∧
    _transform_string (("see https://t.me/tgto123update and join tgto123update today").toList)
      = ("see https://t.me/TG123Cloud and join TG123Cloud today").toList := by
  constructor
  · intro s
    rfl
  · simp [_transform_string, _REPLACEMENTS, strIn, pyReplace]

/-- All branches of the rewriter return the original non-constant fields:
the no-change branch returns the original object, and the rebuild branch
copies every field of the original into the new object. -/
theorem rewrite_preserves_fields (fields : CodeFields) (consts : List PyConst)
    (transform : PyConst → PyConst) :
    (_rewrite_code_object_consts fields consts transform).2.1 = fields := by
  rcases hl : rewriteConstsLoop consts transform with ⟨b, out⟩
  cases b with
  | true => simp [_rewrite_code_object_consts, hl, _rebuild_code_with_new_consts]
  | false => simp [_rewrite_code_object_consts, hl]

/-- C5: when the constants of a unit do change (the rewriter reports a fresh
object), the rebuilt unit agrees with the original on every non-constant
field: argument counts, local count, stack size, flags, raw instruction
bytes, names, variable names, filename, name, qualified name, first line
number, line and exception tables, and free and cell variables. -/
theorem C5_field_preservation (fields : CodeFields) (consts : List PyConst)
    (h : (_rewrite_code_object_consts fields consts _transform_const).1 = true) :
    ((_rewrite_code_object_consts fields consts _transform_const).2.1).co_argcount = fields.co_argcount ∧
    ((_rewrite_code_object_consts fields consts _transform_const).2.1).co_posonlyargcount = fields.co_posonlyargcount ∧
    ((_rewrite_code_object_consts fields consts _transform_const).2.1).co_kwonlyargcount = fields.co_kwonlyargcount ∧
    ((_rewrite_code_object_consts fields consts _transform_const).2.1).co_nlocals = fields.co_nlocals ∧
    ((_rewrite_code_object_consts fields consts _transform_const).2.1).co_stacksize = fields.co_stacksize ∧
    ((_rewrite_code_object_consts fields consts _transform_const).2.1).co_flags = fields.co_flags ∧
    ((_rewrite_code_object_consts fields consts _transform_const).2.1).co_code = fields.co_code ∧
    ((_rewrite_code_object_consts fields consts _transform_const).2.1).co_names = fields.co_names ∧
    ((_rewrite_code_object_consts fields consts _transform_const).2.1).co_varnames = fields.co_varnames ∧
    ((_rewrite_code_object_consts fields consts _transform_const).2.1).co_filename = fields.co_filename ∧
    ((_rewrite_code_object_consts fields consts _transform_const).2.1).co_name = fields.co_name ∧
    ((_rewrite_code_object_consts fields consts _transform_const).2.1).co_qualname = fields.co_qualname ∧
    ((_rewrite_code_object_consts fields consts _transform_const).2.1).co_firstlineno = fields.co_firstlineno ∧
    ((_rewrite_code_object_consts fields consts _transform_const).2.1).co_linetable = fields.co_linetable ∧
    ((_rewrite_code_object_consts fields consts _transform_const).2.1).co_exceptiontable = fields.co_exceptiontable ∧
    ((_rewrite_code_object_consts fields consts _transform_const).2.1).co_freevars = fields.co_freevars ∧
    ((_rewrite_code_object_consts fields consts _transform_const).2.1).co_cellvars = fields.co_cellvars := by
  rw [rewrite_preserves_fields fields consts _transform_const]
  exact ⟨rfl, rfl, rfl, rfl, rfl, rfl, rfl, rfl, rfl, rfl, rfl, rfl, rfl, rfl, rfl, rfl, rfl⟩

/-- Witness for C5 at a unit whose constants do change (it contains the
integer 47). -/
theorem C5_field_preservation_witness :
    (_rewrite_code_object_consts sampleFields [.int 47] _transform_const).1 = true ∧
    ((_rewrite_code_object_consts sampleFields [.int 47] _transform_const).2.1).co_code = sampleFields.co_code := by
  have h : (_rewrite_code_object_consts sampleFields [.int 47] _transform_const).1 = true := by
    simp [_rewrite_code_object_consts, rewriteConstsLoop, entryRewrite, _transform_const, pyBeq]
  exact ⟨h, (C5_field_preservation sampleFields [.int 47] h).2.2.2.2.2.2.1⟩

/-- C6: the sanitizing-wrapper path is idempotent up to reference identity.
A callable already carrying the `__patched_tgto123__` marker is returned as
the exact same reference (`false` = the source's `return func` branch);
every callable the path returns carries the marker (so absence of the marker
means the callable never went through the wrapper path); wrapping the result
again returns that result's exact reference, so a single call through the
doubly-wrapped callable performs string substitution exactly as the
singly-wrapped one does — at most once. -/
theorem C6_wrap_idempotent (f : Callable) :
    _wrap_callable_string_transform { f with marked := true }
      = (false, { f with marked := true }) ∧
    (_wrap_callable_string_transform f).2.marked = true ∧
    _wrap_callable_string_transform (_wrap_callable_string_transform f).2
      = (false, (_wrap_callable_string_transform f).2) ∧
    (∀ args kwargs,
      ((_wrap_callable_string_transform (_wrap_callable_string_transform f).2).2).call args kwargs
        = ((_wrap_callable_string_transform f).2).call args kwargs) := by
  refine ⟨rfl, ?_, ?_, ?_⟩
  · cases hm : f.marked <;> simp [_wrap_callable_string_transform, hm]
  · cases hm : f.marked <;> simp [_wrap_callable_string_transform, hm]
  · intro args kwargs
    cases hm : f.marked <;> simp [_wrap_callable_string_transform, hm]

/-- True iff the loaded value is a code object (`isinstance(code_obj,
types.CodeType)` in the source). -/
def isCodeObj : PyConst → Bool
  | .code _ _ => true
  | _ => false

/-- C9: the entry point exits with status 2 when no compiled-unit path is
given (`sys.argv` holds fewer than two entries), with status 1 whenever the
compiled representation cannot be loaded — the loader raising (the exception
escapes `main`, and CPython terminates an uncaught process with status 1) or
the loader handing back a non-code value (the explicit `return 1`) — and
with status 0 when a code object loads and executes to completion. -/
theorem C9_exit_codes (argv : List (List Char)) (lr : Except (List Char) PyConst)
    (ex : Bool) (v : PyConst) (f : CodeFields) (cs : List PyConst) :
    (argv.length < 2 → processExitStatus (run_pyc_main argv lr ex) = 2) ∧
    (2 ≤ argv.length → ∀ e, lr = .error e →
      processExitStatus (run_pyc_main argv lr ex) = 1) ∧
    (2 ≤ argv.length → lr = .ok v → isCodeObj v = false →
      processExitStatus (run_pyc_main argv lr ex) = 1) ∧
    (2 ≤ argv.length → lr = .ok (.code f cs) → ex = true →
      processExitStatus (run_pyc_main argv lr ex) = 0) := by
  refine ⟨?_, ?_, ?_, ?_⟩
  · intro hlen
    simp [run_pyc_main, hlen, processExitStatus]
  · intro hlen e he
    subst he
    simp [run_pyc_main, Nat.not_lt.mpr hlen, processExitStatus]
  · intro hlen hv hnc
    subst hv
    cases v <;> simp_all [run_pyc_main, Nat.not_lt.mpr hlen, processExitStatus, isCodeObj]
  · intro hlen hv hex
    subst hv
    subst hex
    simp [run_pyc_main, Nat.not_lt.mpr hlen, processExitStatus]

/-- Witness for C9 at concrete inputs: a missing path, a load failure, a
non-code load result, and a successful run. -/
theorem C9_exit_codes_witness :
    processExitStatus (run_pyc_main [("run.py").toList] (.ok .pynone) true) = 2 ∧
    processExitStatus (run_pyc_main [("run.py").toList, ("t.pyc").toList]
      (.error (("missing").toList)) true) = 1 ∧
    processExitStatus (run_pyc_main [("run.py").toList, ("t.pyc").toList]
      (.ok .pynone) true) = 1 ∧
    processExitStatus (run_pyc_main [("run.py").toList, ("t.pyc").toList]
      (.ok (.code sampleFields [])) true) = 0 := by
  refine ⟨?_, ?_, ?_, ?_⟩
  · exact (C9_exit_codes [("run.py").toList] (.ok .pynone) true .pynone sampleFields []).1
      (by simp)
  · exact (C9_exit_codes [("run.py").toList, ("t.pyc").toList]
      (.error (("missing").toList)) true .pynone sampleFields []).2.1
      (by simp) (("missing").toList) rfl
  · exact (C9_exit_codes [("run.py").toList, ("t.pyc").toList]
      (.ok .pynone) true .pynone sampleFields []).2.2.1 (by simp) rfl rfl
  · exact (C9_exit_codes [("run.py").toList, ("t.pyc").toList]
      (.ok (.code sampleFields [])) true .pynone sampleFields []).2.2.2
      (by simp) rfl rfl

/-- True iff a constant-pool entry falls into the rewriter's final `else`
branch: neither a string, nor an integer (a Python `bool` is an instance of
`int` and therefore goes through the transform branch instead), nor a nested
code object. -/
def isOtherConst : PyConst → Bool
  | .str _ => false
  | .int _ => false
  | .bool _ => false
  | .code _ _ => false
  | _ => true

/-- The loop builds a pool with exactly one output entry per input entry. -/
theorem rewriteConstsLoop_length (cs : List PyConst) (transform : PyConst → PyConst) :
    (rewriteConstsLoop cs transform).2.length = cs.length := by
  induction cs with
  | nil => simp [rewriteConstsLoop]
  | cons c rest ih => simp [rewriteConstsLoop, ih]

/-- An entry in the `else` branch contributes no change and is appended as
the identical object. -/
theorem entryRewrite_other (c : PyConst) (transform : PyConst → PyConst)
    (hc : isOtherConst c = true) :
    entryRewrite c transform = (false, c) := by
  cases c <;> simp_all [entryRewrite, isOtherConst]

/-- C10: for every transform, a constant-pool entry that is neither a string,
an integer (Python booleans count as integers), nor a nested compiled unit —
including a tuple or frozenset that itself contains a matching target
string — is placed in the output pool, at its own position, as the identical
object the source appended without touching; hence a target literal inside a
container constant is never rewritten, and the output pool always has the
same length as the input pool. -/
theorem C10_container_passthrough (transform : PyConst → PyConst)
    (cs : List PyConst) (i : Nat) (c : PyConst)
    (hget : cs[i]? = some c) (hc : isOtherConst c = true) :
    (rewriteConstsLoop cs transform).2.length = cs.length ∧
    (rewriteConstsLoop cs transform).2[i]? = some c ∧
    entryRewrite (.tuple [.str (("tgto123update").toList)]) transform
      = (false, .tuple [.str (("tgto123update").toList)]) ∧
    entryRewrite (.frozenset [.str (("@tgto123update").toList)]) transform
      = (false, .frozenset [.str (("@tgto123update").toList)]) := by
  refine ⟨rewriteConstsLoop_length cs transform,
    ?_, entryRewrite_other _ transform rfl, entryRewrite_other _ transform rfl⟩
  induction cs generalizing i with
  | nil => simp at hget
  | cons hd rest ih =>
    cases i with
    | zero =>
      simp at hget
      subst hget
      simp [rewriteConstsLoop, entryRewrite_other hd transform hc]
    | succ j =>
      simp at hget
      have := ih j hget
      simp [rewriteConstsLoop, this]

/-- Witness for C10: a pool whose first entry is a tuple wrapping the target
literal and whose second entry is the integer 47; the tuple passes through
unchanged even though the rewrite as a whole fires on the integer. -/
theorem C10_container_passthrough_witness :
    ([PyConst.tuple [.str (("tgto123update").toList)], PyConst.int 47][0]?
      = some (PyConst.tuple [.str (("tgto123update").toList)])) ∧
    isOtherConst (PyConst.tuple [.str (("tgto123update").toList)]) = true ∧
    (rewriteConstsLoop [PyConst.tuple [.str (("tgto123update").toList)], PyConst.int 47]
      _transform_const).2[0]? = some (PyConst.tuple [.str (("tgto123update").toList)]) := by
  refine ⟨rfl, rfl, ?_⟩
  exact (C10_container_passthrough _transform_const
    [PyConst.tuple [.str (("tgto123update").toList)], PyConst.int 47] 0
    (PyConst.tuple [.str (("tgto123update").toList)]) rfl rfl).2.1

mutual
/-- After one loop iteration the produced entry contains no integer 47 at any
code-object nesting depth; and an iteration that reports no change started
from an entry that already contained no integer 47. -/
theorem entryRewrite_47free (c : PyConst) :
    const47Free (entryRewrite c _transform_const).2 = true ∧
    ((entryRewrite c _transform_const).1 = false → const47Free c = true) := by
  cases c with
  | str s => simp [entryRewrite, _transform_const, const47Free]
  | int n =>
    by_cases h47 : n = 47
    · subst h47
      simp [entryRewrite, _transform_const, const47Free, pyBeq]
    · simp [entryRewrite, _transform_const, const47Free, pyBeq, h47]
  | bool b => simp [entryRewrite, _transform_const, const47Free]
  | code f cs =>
    have hl := rewriteConstsLoop_47free cs
    rcases hloop : rewriteConstsLoop cs _transform_const with ⟨b, out⟩
    cases b with
    | true =>
      constructor
      · simp [entryRewrite, _rewrite_code_object_consts, hloop,
          _rebuild_code_with_new_consts, const47Free]
        have := hl.1
        rw [hloop] at this
        simpa using this
      · intro hfalse
        simp [entryRewrite, _rewrite_code_object_consts, hloop] at hfalse
    | false =>
      constructor
      · simp [entryRewrite, _rewrite_code_object_consts, hloop, const47Free]
        have := hl.2
        rw [hloop] at this
        simpa [pool47Free] using this rfl
      · intro _
        have := hl.2
        rw [hloop] at this
        simpa [const47Free] using this rfl
  | float r => simp [entryRewrite, const47Free]
  | bytes bs => simp [entryRewrite, const47Free]
  | pynone => simp [entryRewrite, const47Free]
  | tuple es => simp [entryRewrite, const47Free]
  | frozenset es => simp [entryRewrite, const47Free]
  | other t => simp [entryRewrite, const47Free]

/-- The loop's output pool contains no integer 47 at any code-object nesting
depth; and a loop run that reports no change started from a pool that
already contained none. -/
theorem rewriteConstsLoop_47free (cs : List PyConst) :
    pool47Free (rewriteConstsLoop cs _transform_const).2 = true ∧
    ((rewriteConstsLoop cs _transform_const).1 = false → pool47Free cs = true) := by
  cases cs with
  | nil => simp [rewriteConstsLoop, pool47Free]
  | cons c rest =>
    have hc := entryRewrite_47free c
    have hrest := rewriteConstsLoop_47free rest
    constructor
    · simp [rewriteConstsLoop, pool47Free, hc.1, hrest.1]
    · intro hfalse
      simp [rewriteConstsLoop] at hfalse
      simp [pool47Free, hc.2 hfalse.1, hrest.2 hfalse.2]
end

/-- An integer-47 entry is rewritten in place to the integer 8. -/
theorem rewriteConstsLoop_47_becomes_8 (cs : List PyConst) (i : Nat)
    (hget : cs[i]? = some (.int 47)) :
    (rewriteConstsLoop cs _transform_const).2[i]? = some (.int 8) := by
  induction cs generalizing i with
  | nil => simp at hget
  | cons hd rest ih =>
    cases i with
    | zero =>
      simp at hget
      subst hget
      simp [rewriteConstsLoop, entryRewrite, _transform_const]
    | succ j =>
      simp at hget
      have := ih j hget
      simp [rewriteConstsLoop, this]

/-- C4: the numeric rule applies only to exact integer scalars.  An integer
constant equal to 47 is rewritten to 8 at its position, and the rewritten
pool contains no integer 47 at any nesting depth of nested compiled units;
the string "47" is returned unchanged, the float 47.0 is returned unchanged,
and `_transform_const` leaves every non-string non-integer constant —
booleans included — unchanged. -/
theorem C4_numeric_scoping (cs : List PyConst) (i : Nat)
    (hget : cs[i]? = some (.int 47)) :
    pool47Free ((rewriteConstsLoop cs _transform_const).2) = true ∧
    (rewriteConstsLoop cs _transform_const).2[i]? = some (.int 8) ∧
    _transform_const (.str (("47").toList)) = .str (("47").toList) ∧
    _transform_const (.float (("47.0").toList)) = .float (("47.0").toList) ∧
    (∀ c : PyConst, isOtherConst c = true → _transform_const c = c) ∧
    (∀ b : Bool, _transform_const (.bool b) = .bool b) := by
  refine ⟨(rewriteConstsLoop_47free cs).1, rewriteConstsLoop_47_becomes_8 cs i hget,
    ?_, rfl, ?_, fun b => rfl⟩
  · simp [_transform_const, _transform_string, _REPLACEMENTS, strIn, pyReplace]
  · intro c hc
    cases c <;> simp_all [isOtherConst, _transform_const]

/-- Witness for C4 at the one-constant pool `(47,)`. -/
theorem C4_numeric_scoping_witness :
    ([PyConst.int 47][0]? = some (PyConst.int 47)) ∧
    (rewriteConstsLoop [PyConst.int 47] _transform_const).2[0]? = some (PyConst.int 8) := by
  exact ⟨rfl, (C4_numeric_scoping [PyConst.int 47] 0 rfl).2.1⟩


/-- Mapping an infallible (always-`ok`) operation over a list never errors
and produces the plain map. -/
theorem exceptMapM_ok {E α β : Type} (g : α → β) (xs : List α) :
    exceptMapM (fun x => (Except.ok (g x) : Except E β)) xs = .ok (xs.map g) := by
  induction xs with
  | nil => rfl
  | cons x rest ih => simp [exceptMapM, ih]

/-- C8: `_patch_function` never propagates an exception.  If the rewrite of
the compiled body raises, the call returns `changed = false` with the
function untouched; if a default-value or a keyword-only-default rewrite
raises, the call returns `changed = false`; and with infallible operations
the `try` body behaves exactly as the exception-free `_patch_function`, so
every outcome of the fallible model is a plain `(changed, fn)` pair — no
error escapes. -/
theorem C8_patch_function_swallows (E : Type)
    (rewrite_body : CodeFields → List PyConst → Except E (Bool × CodeFields × List PyConst))
    (transform_default : PyConst → Except E PyConst)
    (fn : PyFunction) (e : E) :
    (rewrite_body fn.code_fields fn.code_consts = .error e →
      _patch_function_fallible E rewrite_body transform_default fn = (false, fn)) ∧
    (∀ r, rewrite_body fn.code_fields fn.code_consts = .ok r →
      fn.defaults.isEmpty = false →
      exceptMapM transform_default fn.defaults = .error e →
      (_patch_function_fallible E rewrite_body transform_default fn).1 = false) ∧
    (∀ r, rewrite_body fn.code_fields fn.code_consts = .ok r →
      fn.defaults.isEmpty = true →
      exceptMapM (fun kv => (transform_default kv.2).map (fun v => (kv.1, v))) fn.kwdefaults
        = .error e →
      (_patch_function_fallible E rewrite_body transform_default fn).1 = false) ∧
    (_patch_function_fallible Empty
      (fun f cs => .ok (_rewrite_code_object_consts f cs _transform_const))
      (fun c => .ok (_transform_const c)) fn = _patch_function fn) := by
  refine ⟨?_, ?_, ?_, ?_⟩
  · intro herr
    simp [_patch_function_fallible, herr]
  · intro r hok hne hmap
    cases hr1 : r.1 <;>
      simp [_patch_function_fallible, hok, hr1, hne, hmap]
  · intro r hok hde hmap
    have hke : fn.kwdefaults.isEmpty = false := by
      cases hkw : fn.kwdefaults with
      | nil => rw [hkw] at hmap; simp [exceptMapM] at hmap
      | cons a l => simp
    cases hr1 : r.1 <;>
      simp [_patch_function_fallible, hok, hr1, hde, hke, hmap]
  · rcases hr : _rewrite_code_object_consts fn.code_fields fn.code_consts _transform_const
      with ⟨b, f2, cs2⟩
    cases b <;>
      by_cases hde : fn.defaults.isEmpty <;>
      by_cases hbl : pyBeqList (fn.defaults.map _transform_const) fn.defaults <;>
      by_cases hke : fn.kwdefaults.isEmpty <;>
      by_cases hbk : pyBeqKw (fn.kwdefaults.map (fun kv => (kv.1, _transform_const kv.2)))
        fn.kwdefaults <;>
      simp [_patch_function_fallible, _patch_function, hr, exceptMapM_ok, Except.map,
        hde, hbl, hke, hbk]

/-- A concrete function object used by witnesses: one string constant in its
body, no defaults. -/
def sampleFunction : PyFunction :=
  { code_fields := sampleFields, code_consts := [.pynone, .str (("hello").toList)],
    defaults := [], kwdefaults := [] }

/-- Witness for C8: an oracle that raises during the body rewrite makes the
call report `changed = false` and leave the function untouched. -/
theorem C8_patch_function_swallows_witness :
    ((fun (_ : CodeFields) (_ : List PyConst) =>
        (Except.error () : Except Unit (Bool × CodeFields × List PyConst)))
      sampleFunction.code_fields sampleFunction.code_consts = .error ()) ∧
    _patch_function_fallible Unit
      (fun _ _ => .error ())
      (fun c => .ok (_transform_const c)) sampleFunction = (false, sampleFunction) := by
  refine ⟨rfl, ?_⟩
  exact (C8_patch_function_swallows Unit (fun _ _ => .error ())
    (fun c => .ok (_transform_const c)) sampleFunction ()).1 rfl

/-- The static method of the C7 scenario: its compiled body returns the
string literal "tgto123update" (constant pool `(None, "tgto123update")`). -/
def scenarioStatic : PyFunction :=
  { code_fields := sampleFields,
    code_consts := [.pynone, .str (("tgto123update").toList)],
    defaults := [], kwdefaults := [] }

/-- The plain method of the C7 scenario: its body holds only an unrelated
string. -/
def scenarioPlain : PyFunction :=
  { code_fields := sampleFields,
    code_consts := [.pynone, .str (("just a greeting").toList)],
    defaults := [], kwdefaults := [] }

/-- The C7 namespace: one class with the static method and the plain
method, nothing else. -/
def scenarioModule : PyModule :=
  { newest_id := none, str_attrs := [], func_attrs := [],
    class_attrs := [(("C").toList,
      [(("get_url").toList, .staticM scenarioStatic),
       (("helper").toList, .plainFn scenarioPlain)])],
    send_message := none }

/-- C7: sweeping the scenario namespace rewrites the static method's body so
that it returns "TG123Cloud", leaves the plain method's unrelated string
byte-for-byte untouched, and accumulates a change count of exactly 1. -/
theorem C7_sweep_scenario :
    (apply_patch scenarioModule).2 = 1 ∧
    (apply_patch scenarioModule).1.class_attrs
      = [(("C").toList,
          [(("get_url").toList, .staticM
            { code_fields := sampleFields,
              code_consts := [.pynone, .str (("TG123Cloud").toList)],
              defaults := [], kwdefaults := [] }),
           (("helper").toList, .plainFn scenarioPlain)])] := by
  constructor <;>
    simp [apply_patch, patchClassAttrs, patchFuncAttrs, _patch_class, _patch_function,
      _patch_property, _rewrite_code_object_consts, rewriteConstsLoop, entryRewrite,
      _transform_const, _transform_string, _REPLACEMENTS, strIn, pyReplace, pyBeq,
      pyBeqList, pyBeqKw, _rebuild_code_with_new_consts, scenarioModule, scenarioStatic,
      scenarioPlain, sampleFields]

/-- The bare identifier match-literal, the weakest rule: it is a substring of
every other match-literal, so a string containing any match-literal contains
this one. -/
def pat4 : List Char := ("tgto123update").toList

/-- The bare identifier replacement. -/
def rep4 : List Char := ("TG123Cloud").toList

theorem pyReplace_nil (old new : List Char) : pyReplace [] old new = [] := by
  simp [pyReplace]

theorem pyReplace_pos (c : Char) (rest old new : List Char) (hne : old ≠ [])
    (hp : old <+: c :: rest) :
    pyReplace (c :: rest) old new = new ++ pyReplace ((c :: rest).drop old.length) old new := by
  have hcond : (!old.isEmpty && old.isPrefixOf (c :: rest)) = true := by
    simp [List.isPrefixOf_iff_prefix, hp, List.isEmpty_iff, hne]
  simp only [pyReplace]
  rw [dif_pos hcond]

theorem pyReplace_neg (c : Char) (rest old new : List Char)
    (hp : ¬ old <+: c :: rest) :
    pyReplace (c :: rest) old new = c :: pyReplace rest old new := by
  have hcond : ¬ ((!old.isEmpty && old.isPrefixOf (c :: rest)) = true) := by
    simp [List.isPrefixOf_iff_prefix, hp]
  simp only [pyReplace]
  rw [dif_neg hcond]

/-- The Python substring test agrees with list-infix. -/
theorem strIn_correct (old s : List Char) : strIn old s = true ↔ old <:+: s := by
  induction s with
  | nil => simp [strIn, List.isEmpty_iff]
  | cons c rest ih => simp [strIn, List.isPrefixOf_iff_prefix, ih, List.infix_cons_iff]

/-- If a list prefixes a concatenation and is at least as long as the left
part, the left part prefixes it. -/
theorem prefixAppendLeft (p X T : List Char) (h : p <+: X ++ T)
    (hl : X.length ≤ p.length) : X <+: p := by
  induction X generalizing p with
  | nil => exact List.nil_prefix
  | cons x xs ih =>
    cases p with
    | nil => simp at hl
    | cons a p2 =>
      rw [List.cons_append, List.cons_prefix_cons] at h
      rw [List.cons_prefix_cons]
      exact ⟨h.1.symm, ih p2 h.2 (by simpa using hl)⟩

/-- An infix of `X ++ T` is a prefix of some `X.drop i ++ T` with
`i ≤ X.length`, or an infix of `T` alone. -/
theorem infixAppendCases (p X T : List Char) (h : p <:+: X ++ T) :
    (∃ i, i ≤ X.length ∧ p <+: X.drop i ++ T) ∨ p <:+: T := by
  rcases h with ⟨u, v, huv⟩
  have hdrop : p <+: (X ++ T).drop u.length := by
    have : (X ++ T).drop u.length = p ++ v := by
      rw [← huv, List.append_assoc, List.drop_append_eq_append_drop]
      simp
    rw [this]
    exact ⟨v, rfl⟩
  by_cases hu : u.length ≤ X.length
  · left
    refine ⟨u.length, hu, ?_⟩
    rw [List.drop_append_eq_append_drop, Nat.sub_eq_zero_of_le hu, List.drop_zero] at hdrop
    exact hdrop
  · right
    rw [List.drop_append_eq_append_drop, List.drop_eq_nil_iff.mpr (by omega),
      List.nil_append] at hdrop
    exact List.infix_iff_prefix_suffix.mpr
      ⟨T.drop (u.length - X.length), hdrop, List.drop_suffix _ _⟩

/-- Scanning invariant of the final (bare identifier) rule: if a nonempty
tail of the match-literal is a prefix of the replaced output, that same tail
was already a prefix of the input — replacement blocks can never supply any
character of such a tail, because the replacement "TG123Cloud" shares no
aligned character with "tgto123update". -/
theorem replaceKeepsTail :
    ∀ (n : Nat) (s : List Char), s.length ≤ n → ∀ k, k ≤ 12 →
      pat4.drop k <+: pyReplace s pat4 rep4 → pat4.drop k <+: s := by
  intro n
  induction n with
  | zero =>
    intro s hs k hk h
    have hsnil : s = [] := List.length_eq_zero.mp (Nat.le_zero.mp hs)
    subst hsnil
    rw [pyReplace_nil] at h
    have hy : pat4.drop k = [] := List.prefix_nil.mp h
    have hle : pat4.length ≤ k := List.drop_eq_nil_iff.mp hy
    have hlen : pat4.length = 13 := by decide
    omega
  | succ n ih =>
    intro s hs k hk h
    cases s with
    | nil =>
      rw [pyReplace_nil] at h
      have hy : pat4.drop k = [] := List.prefix_nil.mp h
      have hle : pat4.length ≤ k := List.drop_eq_nil_iff.mp hy
      have hlen : pat4.length = 13 := by decide
      omega
    | cons c rest =>
      have hp13 : pat4.length = 13 := by decide
      have hr10 : rep4.length = 10 := by decide
      by_cases hm : pat4 <+: c :: rest
      · rw [pyReplace_pos c rest pat4 rep4 (by decide) hm] at h
        exfalso
        by_cases hk3 : 3 ≤ k
        · have hylen : (pat4.drop k).length ≤ rep4.length := by
            simp only [List.length_drop]
            omega
          have hyr : pat4.drop k <+: rep4 := (List.isPrefix_append_of_length hylen).mp h
          have hfact : ∀ j, j < 13 → ¬ (pat4.drop j <+: rep4) := by decide
          exact hfact k (by omega) hyr
        · have hylen : rep4.length ≤ (pat4.drop k).length := by
            simp only [List.length_drop]
            omega
          have hlp : rep4 <+: pat4.drop k := prefixAppendLeft _ _ _ h hylen
          have hfact : ∀ j, j < 3 → ¬ (rep4 <+: pat4.drop j) := by decide
          exact hfact k (by omega) hlp
      · rw [pyReplace_neg c rest pat4 rep4 hm] at h
        have hk13 : k < pat4.length := by omega
        have hdec : pat4.drop k = pat4[k] :: pat4.drop (k + 1) :=
          List.drop_eq_getElem_cons hk13
        rw [hdec] at h ⊢
        rw [List.cons_prefix_cons] at h ⊢
        refine ⟨h.1, ?_⟩
        have hrest : rest.length ≤ n := by
          simp only [List.length_cons] at hs
          omega
        by_cases hk12 : k + 1 ≤ 12
        · exact ih rest hrest (k + 1) hk12 h.2
        · have hk' : k = 12 := by omega
          subst hk'
          have hnil : pat4.drop 13 = [] := by decide
          rw [hnil]
          exact List.nil_prefix

/-- The bare identifier rule never reintroduces its own match-literal:
its replaced output never contains "tgto123update". -/
theorem replaceNoPat4 :
    ∀ (n : Nat) (s : List Char), s.length ≤ n → ¬ (pat4 <:+: pyReplace s pat4 rep4) := by
  intro n
  induction n with
  | zero =>
    intro s hs h
    have hsnil : s = [] := List.length_eq_zero.mp (Nat.le_zero.mp hs)
    subst hsnil
    rw [pyReplace_nil] at h
    have : pat4 = [] := by simpa using h
    exact absurd this (by decide)
  | succ n ih =>
    intro s hs h
    cases s with
    | nil =>
      rw [pyReplace_nil] at h
      have : pat4 = [] := by simpa using h
      exact absurd this (by decide)
    | cons c rest =>
      have hp13 : pat4.length = 13 := by decide
      have hr10 : rep4.length = 10 := by decide
      have hrest : rest.length ≤ n := by
        simp only [List.length_cons] at hs
        omega
      by_cases hm : pat4 <+: c :: rest
      · rw [pyReplace_pos c rest pat4 rep4 (by decide) hm] at h
        have hdroplen : ((c :: rest).drop pat4.length).length ≤ n := by
          simp only [List.length_drop, List.length_cons]
          omega
        rcases infixAppendCases pat4 rep4 _ h with ⟨i, hi, hpre⟩ | hinf
        · by_cases hi10 : i = rep4.length
          · subst hi10
            rw [List.drop_length, List.nil_append] at hpre
            exact ih _ hdroplen hpre.isInfix
          · have hil : rep4.length ≤ (pat4).length := by omega
            have hlp : rep4.drop i <+: pat4 :=
              prefixAppendLeft _ _ _ hpre (by simp only [List.length_drop]; omega)
            have hfact : ∀ j, j < 10 → ¬ (rep4.drop j <+: pat4) := by decide
            exact hfact i (by omega) hlp
        · exact ih _ hdroplen hinf
      · rw [pyReplace_neg c rest pat4 rep4 hm] at h
        rw [List.infix_cons_iff] at h
        rcases h with hpre | hinf
        · apply hm
          have hcons : pat4 = 't' :: pat4.drop 1 := by decide
          rw [hcons, List.cons_prefix_cons] at hpre
          have htl' : pat4.drop 1 <+: rest :=
            replaceKeepsTail rest.length rest (Nat.le_refl _) 1 (by omega) hpre.2
          rw [hcons, List.cons_prefix_cons]
          exact ⟨hpre.1, htl'⟩
        · exact ih rest hrest hinf

/-- The first three rules of the substitution table, as the fold has applied
them when the final rule's turn comes. -/
def firstThree (s : List Char) : List Char :=
  let r1 :=
    if strIn (("https://t.me/tgto123update/").toList) s then
      pyReplace s (("https://t.me/tgto123update/").toList) (("https://t.me/TG123Cloud/").toList)
    else s
  let r2 :=
    if strIn (("https://t.me/tgto123update").toList) r1 then
      pyReplace r1 (("https://t.me/tgto123update").toList) (("https://t.me/TG123Cloud").toList)
    else r1
  if strIn (("@tgto123update").toList) r2 then
    pyReplace r2 (("@tgto123update").toList) (("@TG123Cloud").toList)
  else r2

theorem transform_string_as_last_rule (s : List Char) :
    _transform_string s =
      (if strIn pat4 (firstThree s) then pyReplace (firstThree s) pat4 rep4
       else firstThree s) := rfl

/-- No output of the substitution table contains the bare identifier
match-literal: either the final rule never fired (it was absent already) or
the final rule scrubbed it without reintroduction. -/
theorem transform_no_pat4 (s : List Char) : ¬ (pat4 <:+: _transform_string s) := by
  rw [transform_string_as_last_rule]
  by_cases hin : strIn pat4 (firstThree s) = true
  · rw [if_pos hin]
    exact replaceNoPat4 (firstThree s).length (firstThree s) (Nat.le_refl _)
  · rw [if_neg hin]
    intro hcontra
    exact hin ((strIn_correct pat4 (firstThree s)).mpr hcontra)

/-- `_transform_string` is idempotent: its output contains no match-literal
of any rule (every match-literal contains the bare identifier literal as a
substring), so a second pass skips all four guarded replacements. -/
theorem transform_string_idem (s : List Char) :
    _transform_string (_transform_string s) = _transform_string s := by
  have hno : ¬ (pat4 <:+: _transform_string s) := transform_no_pat4 s
  have h4 : strIn pat4 (_transform_string s) = false := by
    rw [Bool.eq_false_iff]
    intro hc
    exact hno ((strIn_correct _ _).mp hc)
  have h1 : strIn (("https://t.me/tgto123update/").toList) (_transform_string s) = false := by
    rw [Bool.eq_false_iff]
    intro hc
    exact hno ((by decide : pat4 <:+: (("https://t.me/tgto123update/").toList)).trans
      ((strIn_correct _ _).mp hc))
  have h2 : strIn (("https://t.me/tgto123update").toList) (_transform_string s) = false := by
    rw [Bool.eq_false_iff]
    intro hc
    exact hno ((by decide : pat4 <:+: (("https://t.me/tgto123update").toList)).trans
      ((strIn_correct _ _).mp hc))
  have h3 : strIn (("@tgto123update").toList) (_transform_string s) = false := by
    rw [Bool.eq_false_iff]
    intro hc
    exact hno ((by decide : pat4 <:+: (("@tgto123update").toList)).trans
      ((strIn_correct _ _).mp hc))
  have hunfold : _transform_string (_transform_string s)
      = (if strIn pat4 (firstThree (_transform_string s)) then
          pyReplace (firstThree (_transform_string s)) pat4 rep4
         else firstThree (_transform_string s)) := transform_string_as_last_rule _
  have h1n : ¬ (strIn (("https://t.me/tgto123update/").toList) (_transform_string s) = true) := by
    rw [h1]
    simp
  have h2n : ¬ (strIn (("https://t.me/tgto123update").toList) (_transform_string s) = true) := by
    rw [h2]
    simp
  have h3n : ¬ (strIn (("@tgto123update").toList) (_transform_string s) = true) := by
    rw [h3]
    simp
  have h4n : ¬ (strIn pat4 (_transform_string s) = true) := by
    rw [h4]
    simp
  have hft : firstThree (_transform_string s) = _transform_string s := by
    simp only [firstThree]
    rw [if_neg h1n, if_neg h2n, if_neg h3n]
  rw [hunfold, hft, if_neg h4n]

/-- `_transform_const` is idempotent: strings by `transform_string_idem`,
integers because 8 is not 47, and everything else is returned unchanged. -/
theorem transform_const_idem (c : PyConst) :
    _transform_const (_transform_const c) = _transform_const c := by
  cases c with
  | str s => simp [_transform_const, transform_string_idem]
  | int n =>
    by_cases h47 : n = 47
    · subst h47
      simp [_transform_const]
    · simp [_transform_const, h47]
  | bool b => rfl
  | float r => rfl
  | bytes bs => rfl
  | pynone => rfl
  | tuple es => rfl
  | frozenset es => rfl
  | code f cs => rfl
  | other t => rfl

mutual
/-- A second loop iteration over an already-rewritten entry finds nothing to
change and reproduces the entry. -/
theorem entryRewrite_idem (c : PyConst) :
    entryRewrite (entryRewrite c _transform_const).2 _transform_const
      = (false, (entryRewrite c _transform_const).2) := by
  cases c with
  | str s =>
    have h := transform_string_idem s
    simp [entryRewrite, _transform_const, pyBeq, h]
  | int n =>
    by_cases h47 : n = 47
    · subst h47
      simp [entryRewrite, _transform_const, pyBeq]
    · simp [entryRewrite, _transform_const, pyBeq, h47]
  | bool b => simp [entryRewrite, _transform_const, pyBeq]
  | code f cs =>
    have hl := rewriteConstsLoop_idem cs
    rcases hloop : rewriteConstsLoop cs _transform_const with ⟨b, out⟩
    cases b with
    | true =>
      rw [hloop] at hl
      simp [entryRewrite, _rewrite_code_object_consts, hloop, hl,
        _rebuild_code_with_new_consts]
    | false =>
      simp [entryRewrite, _rewrite_code_object_consts, hloop]
  | float r => simp [entryRewrite]
  | bytes bs => simp [entryRewrite]
  | pynone => simp [entryRewrite]
  | tuple es => simp [entryRewrite]
  | frozenset es => simp [entryRewrite]
  | other t => simp [entryRewrite]

/-- A second loop pass over an already-rewritten pool reports `changed =
False` and reproduces the pool. -/
theorem rewriteConstsLoop_idem (cs : List PyConst) :
    rewriteConstsLoop (rewriteConstsLoop cs _transform_const).2 _transform_const
      = (false, (rewriteConstsLoop cs _transform_const).2) := by
  cases cs with
  | nil => simp [rewriteConstsLoop]
  | cons c rest =>
    have hc := entryRewrite_idem c
    have hrest := rewriteConstsLoop_idem rest
    simp [rewriteConstsLoop, hc, hrest]
end

/-- C2: the rewriter is idempotent up to reference identity.  Applied to its
own output, `_rewrite_code_object_consts` finds nothing left to change
(`false` = the source's `return code` branch, handing back the exact object
reference it was given).  The reason is spelled out in the further
conjuncts: no output of the substitution table contains a match-literal of
any rule — all four guards test `false` on any transformed string — and the
integer 8 produced by the numeric rule is not 47. -/
theorem C2_rewrite_idempotent (fields : CodeFields) (consts : List PyConst) :
    _rewrite_code_object_consts
      (_rewrite_code_object_consts fields consts _transform_const).2.1
      (_rewrite_code_object_consts fields consts _transform_const).2.2
      _transform_const
    = (false,
       (_rewrite_code_object_consts fields consts _transform_const).2.1,
       (_rewrite_code_object_consts fields consts _transform_const).2.2) ∧
    (∀ s : List Char,
      strIn (("https://t.me/tgto123update/").toList) (_transform_string s) = false ∧
      strIn (("https://t.me/tgto123update").toList) (_transform_string s) = false ∧
      strIn (("@tgto123update").toList) (_transform_string s) = false ∧
      strIn (("tgto123update").toList) (_transform_string s) = false) ∧
    _transform_const (_transform_const (.int 47)) = .int 8 := by
  refine ⟨?_, ?_, by simp [_transform_const]⟩
  · rcases hl : rewriteConstsLoop consts _transform_const with ⟨b, out⟩
    have hidem := rewriteConstsLoop_idem consts
    rw [hl] at hidem
    cases b with
    | true =>
      simp only [_rewrite_code_object_consts, hl, _rebuild_code_with_new_consts]
      simp [hidem]
    | false =>
      simp only [_rewrite_code_object_consts, hl]
  · intro s
    have hno : ¬ (pat4 <:+: _transform_string s) := transform_no_pat4 s
    refine ⟨?_, ?_, ?_, ?_⟩ <;>
      rw [Bool.eq_false_iff] <;>
      intro hc <;>
      apply hno
    · exact (by decide : pat4 <:+: (("https://t.me/tgto123update/").toList)).trans
        ((strIn_correct _ _).mp hc)
    · exact (by decide : pat4 <:+: (("https://t.me/tgto123update").toList)).trans
        ((strIn_correct _ _).mp hc)
    · exact (by decide : pat4 <:+: (("@tgto123update").toList)).trans
        ((strIn_correct _ _).mp hc)
    · exact ((strIn_correct _ _).mp hc)
